import Mathlib

/-!
Verification of the y-protocols/y-websocket TypeScript port: the Awareness
engine (`Awareness.ts`), the sync message reader (`sync.ts`) and the
WebSocket provider's reconnect/disconnect logic.

Modelling conventions (shallow embedding):
* JS `Map<number, V>` becomes a function `Nat → Option V`; `Map.set`,
  `Map.delete` and `Map.get` become `mapInsert`, `mapRemove` and plain
  application.  (`Map.forEach` key iteration is modelled by an explicitly
  supplied key enumeration list, see `Awareness.sweep`.)
* JSON values are external collaborators (`JSON.parse` / `JSON.stringify`);
  an awareness state value is represented by its canonical JSON text as a
  `String`, with `Option.none` standing for JSON `null`.
* The lib0 Encoder/Decoder pair is an external collaborator as well; a wire
  buffer is modelled as a list of the items the code writes/reads
  (`writeVarUint` / `readVarUint` and the composite
  `writeVarString (JSON.stringify v)` / `JSON.parse (readVarString)`).
* `Date.now()` becomes an explicit `timestamp : Nat` argument, read once per
  operation exactly as the source does.
-/

-- ===================================================================== --
-- Maps (JS Map modelled as a function to Option)
-- ===================================================================== --

/-- `Map.set`: update the binding of key `k` to `v`. -/
def mapInsert {α : Type} (m : Nat → Option α) (k : Nat) (v : α) : Nat → Option α :=
  fun x => if x = k then some v else m x

/-- `Map.delete`: drop the binding of key `k`. -/
def mapRemove {α : Type} (m : Nat → Option α) (k : Nat) : Nat → Option α :=
  fun x => if x = k then none else m x

-- ===================================================================== --
-- Awareness data model (Awareness.ts)
-- ===================================================================== --

/-- `MetaClientState = { clock: number, lastUpdated: number }`. -/
structure MetaClientState where
  clock : Nat
  lastUpdated : Nat
deriving DecidableEq, Repr

/-- One record of an awareness update blob:
`(varuint client_id, varuint clock, varstring json_state)` after decoding.
`state = none` encodes the JSON `null` tombstone. -/
structure AwRecord where
  clientID : Nat
  clock : Nat
  state : Option String
deriving DecidableEq, Repr

/-- The mutable state of an `Awareness` instance: the local client id and the
two maps `states` and `meta`. -/
structure Awareness where
  clientID : Nat
  states : Nat → Option String
  meta : Nat → Option MetaClientState

/-- `outdatedTimeout = 30000`. -/
def outdatedTimeout : Nat := 30000

/-- Result of an operation that classifies clients and may emit `change` /
`update` events: the new awareness state plus the four classification lists
accumulated by the source (`added`, `updated`, `filteredUpdated`, `removed`). -/
structure ApplyResult where
  aw : Awareness
  added : List Nat
  updated : List Nat
  filteredUpdated : List Nat
  removed : List Nat

/-- `const currClock = clientMeta === undefined ? 0 : clientMeta.clock`. -/
def Awareness.currClock (aw : Awareness) (clientID : Nat) : Nat :=
  match aw.meta clientID with
  | none => 0
  | some m => m.clock

/-- The acceptance test of `applyUpdate` (line 184 of the source):
`currClock < clock || (currClock === clock && state === null && this.states.has(clientID))`. -/
def Awareness.accepts (aw : Awareness) (r : AwRecord) : Bool :=
  decide (aw.currClock r.clientID < r.clock) ||
    (decide (aw.currClock r.clientID = r.clock) && r.state.isNone &&
      (aw.states r.clientID).isSome)

/-- The mutation a single record of `applyUpdate` performs on `states` and
`meta` (source lines 184–197), including the self-defense branch that bumps
the clock and retains the local state.  `this.localState != null` is
`(states clientID).isSome` since `states` never stores nulls. -/
def Awareness.applyRecordAw (ts : Nat) (aw : Awareness) (r : AwRecord) : Awareness :=
  if aw.accepts r then
    match r.state with
    | none =>
      if r.clientID = aw.clientID ∧ (aw.states aw.clientID).isSome then
        -- never let a remote client remove this local state: clock++
        { aw with meta := mapInsert aw.meta r.clientID ⟨r.clock + 1, ts⟩ }
      else
        { aw with states := mapRemove aw.states r.clientID,
                  meta := mapInsert aw.meta r.clientID ⟨r.clock, ts⟩ }
    | some s =>
      { aw with states := mapInsert aw.states r.clientID s,
                meta := mapInsert aw.meta r.clientID ⟨r.clock, ts⟩ }
  else aw

/-- One loop iteration of `applyUpdate` (source lines 176–207): mutate via
`applyRecordAw` and classify the client into `added` / `removed` /
`updated` (+ `filteredUpdated`). -/
def Awareness.applyRecordStep (ts : Nat) (acc : ApplyResult) (r : AwRecord) : ApplyResult :=
  let aw := acc.aw
  let clientMeta := aw.meta r.clientID
  let prevState := aw.states r.clientID
  if aw.accepts r then
    let aw1 := Awareness.applyRecordAw ts aw r
    if clientMeta = none ∧ r.state ≠ none then
      { acc with aw := aw1, added := acc.added ++ [r.clientID] }
    else if clientMeta ≠ none ∧ r.state = none then
      { acc with aw := aw1, removed := acc.removed ++ [r.clientID] }
    else if r.state ≠ none then
      let newFiltered :=
        if r.state ≠ prevState then acc.filteredUpdated ++ [r.clientID]
        else acc.filteredUpdated
      { acc with aw := aw1, updated := acc.updated ++ [r.clientID], filteredUpdated := newFiltered }
    else
      { acc with aw := aw1 }
  else acc

/-- `applyUpdate` on an already-decoded record list; `change` is emitted iff
`added`/`filteredUpdated`/`removed` is non-empty, `update` iff
`added`/`updated`/`removed` is non-empty (source lines 208–213). -/
def Awareness.applyUpdate (aw : Awareness) (records : List AwRecord) (ts : Nat) :
    ApplyResult :=
  records.foldl (Awareness.applyRecordStep ts) ⟨aw, [], [], [], []⟩

/-- The state part of `applyUpdate` alone. -/
def Awareness.applyRecords (ts : Nat) (aw : Awareness) (records : List AwRecord) :
    Awareness :=
  records.foldl (Awareness.applyRecordAw ts) aw

/-- `change` fires iff `added.length > 0 || filteredUpdated.length > 0 || removed.length > 0`. -/
def ApplyResult.emitsChange (res : ApplyResult) : Prop :=
  res.added ≠ [] ∨ res.filteredUpdated ≠ [] ∨ res.removed ≠ []

/-- `update` fires iff `added.length > 0 || updated.length > 0 || removed.length > 0`. -/
def ApplyResult.emitsUpdate (res : ApplyResult) : Prop :=
  res.added ≠ [] ∨ res.updated ≠ [] ∨ res.removed ≠ []

-- ===================================================================== --
-- Wire codec (lib0 Encoder/Decoder as an item stream)
-- ===================================================================== --

/-- One item written to / read from a lib0 encoder: `writeVarUint n`, or the
composite `writeVarString (JSON.stringify v)` (read back as
`JSON.parse (readVarString)`), with `none` for the JSON text `"null"`. -/
inductive WireItem where
  | uint (n : Nat)
  | json (v : Option String)
deriving DecidableEq, Repr

/-- `decoder.readVarUint()`. -/
def readVarUintItem : List WireItem → Option (Nat × List WireItem)
  | .uint n :: rest => some (n, rest)
  | _ => none

/-- `JSON.parse(decoder.readVarString())`. -/
def readJsonItem : List WireItem → Option (Option String × List WireItem)
  | .json v :: rest => some (v, rest)
  | _ => none

/-- The record-reading loop of `applyUpdate` (source lines 176–179): read
`len` triples `(clientID, clock, state)`. -/
def decodeRecords : Nat → List WireItem → Option (List AwRecord × List WireItem)
  | 0, items => some ([], items)
  | n + 1, items => do
    let (c, items1) ← readVarUintItem items
    let (k, items2) ← readVarUintItem items1
    let (s, items3) ← readJsonItem items2
    let (rs, items4) ← decodeRecords n items3
    some (⟨c, k, s⟩ :: rs, items4)

/-- Decode a whole awareness update blob: `varuint len` followed by `len`
records; trailing items are ignored, exactly as the source reads. -/
def decodeBlob (items : List WireItem) : Option (List AwRecord) := do
  let (len, items1) ← readVarUintItem items
  let (rs, _) ← decodeRecords len items1
  some rs

/-- `applyUpdate` on a wire blob: decode, then apply.  A malformed blob makes
the JS code throw inside the decoder; this is `none` here. -/
def Awareness.applyUpdateWire (aw : Awareness) (items : List WireItem) (ts : Nat) :
    Option ApplyResult :=
  (decodeBlob items).map fun records => Awareness.applyUpdate aw records ts

/-- The per-client loop of `encodeUpdate` (source lines 220–228): for each
client write `(clientID, clock, state)`; an unknown clock aborts the whole
encode (`if (clock == null) return`). -/
def Awareness.encodeRecords (aw : Awareness) (clients : List Nat)
    (statesMap : Nat → Option String) : Option (List WireItem) :=
  match clients with
  | [] => some []
  | c :: rest =>
    match aw.meta c with
    | none => none
    | some m =>
      (Awareness.encodeRecords aw rest statesMap).map fun tail =>
        WireItem.uint c :: WireItem.uint m.clock :: WireItem.json (statesMap c) :: tail

/-- `encodeUpdate(clients, states = this.states)`: write `clients.length`
then the records; `none` models the `undefined` return. -/
def Awareness.encodeUpdate (aw : Awareness) (clients : List Nat)
    (statesMap : Nat → Option String) : Option (List WireItem) :=
  (Awareness.encodeRecords aw clients statesMap).map fun body =>
    WireItem.uint clients.length :: body

-- ===================================================================== --
-- localState setter, removeStates, sweeper, destroy (Awareness.ts)
-- ===================================================================== --

/-- `set localState(state)` (source lines 82–111): bump the local clock,
store or delete the local entry, refresh `meta[self]`, and classify for the
`change`/`update` events (the setter always emits `update`, and `change`
iff `added`/`filteredUpdated`/`removed` is non-empty). -/
def Awareness.setLocalState (aw : Awareness) (state : Option String) (ts : Nat) :
    ApplyResult :=
  let clientID := aw.clientID
  let clock : Nat :=
    match aw.meta clientID with
    | none => 0
    | some currLocalMeta => currLocalMeta.clock + 1
  let prevState := aw.states clientID
  let states1 :=
    match state with
    | none => mapRemove aw.states clientID
    | some s => mapInsert aw.states clientID s
  let aw1 : Awareness :=
    { aw with states := states1, meta := mapInsert aw.meta clientID ⟨clock, ts⟩ }
  match state with
  | none => ⟨aw1, [], [], [], [clientID]⟩
  | some s =>
    if prevState = none then ⟨aw1, [clientID], [], [], []⟩
    else ⟨aw1, [], [clientID], if prevState ≠ some s then [clientID] else [], []⟩

/-- Result of `removeStates`: the new state and the `removed` list; both the
`change` and the `update` event fire iff `removed` is non-empty. -/
structure RemoveResult where
  aw : Awareness
  removed : List Nat

def RemoveResult.emitsEvents (res : RemoveResult) : Prop := res.removed ≠ []

/-- The state mutation of one `removeStates` loop iteration (source lines
126–137): skip absent clients; deleting the local client additionally bumps
`meta[self].clock` — unless `meta[self]` is absent, in which case the code
`continue`s after the `states.delete`. -/
def Awareness.removeStepAw (ts : Nat) (aw : Awareness) (clientID : Nat) : Awareness :=
  if (aw.states clientID).isSome then
    let aw1 : Awareness := { aw with states := mapRemove aw.states clientID }
    if clientID = aw.clientID then
      match aw.meta clientID with
      | none => aw1
      | some m => { aw1 with meta := mapInsert aw1.meta clientID ⟨m.clock + 1, ts⟩ }
    else aw1
  else aw

/-- One `removeStates` loop iteration including the `removed.push`; the
`continue` taken when the local client has no meta entry skips the push. -/
def Awareness.removeStep (ts : Nat) (acc : RemoveResult) (clientID : Nat) : RemoveResult :=
  if (acc.aw.states clientID).isSome then
    if clientID = acc.aw.clientID ∧ acc.aw.meta clientID = none then
      { acc with aw := Awareness.removeStepAw ts acc.aw clientID }
    else
      { aw := Awareness.removeStepAw ts acc.aw clientID,
        removed := acc.removed ++ [clientID] }
  else acc

/-- `removeStates(clients, origin)` (source lines 124–142). -/
def Awareness.removeStates (aw : Awareness) (clients : List Nat) (ts : Nat) :
    RemoveResult :=
  clients.foldl (Awareness.removeStep ts) ⟨aw, []⟩

/-- The periodic check installed by the constructor (source lines 54–72):
re-assert a stale local state, then remove remote clients not updated within
`outdatedTimeout`.  `metaKeys` enumerates the keys of the `meta` map (the
`forEach` iteration); every theorem below holds for every enumeration. -/
def Awareness.sweep (aw : Awareness) (now : Nat) (metaKeys : List Nat) : Awareness :=
  match aw.meta aw.clientID with
  | none => aw
  | some m =>
    let aw1 :=
      if (aw.states aw.clientID).isSome ∧ outdatedTimeout / 2 ≤ now - m.lastUpdated then
        (Awareness.setLocalState aw (aw.states aw.clientID) now).aw
      else aw
    let remove := metaKeys.filter fun c =>
      decide (c ≠ aw1.clientID) &&
        (match aw1.meta c with
         | none => false
         | some mc => decide (outdatedTimeout ≤ now - mc.lastUpdated)) &&
        (aw1.states c).isSome
    if remove ≠ [] then (Awareness.removeStates aw1 remove now).aw else aw1

/-- `destroy()` state effect (source lines 232–237): `this.localState = null`. -/
def Awareness.destroy (aw : Awareness) (ts : Nat) : ApplyResult :=
  Awareness.setLocalState aw none ts

/-- The awareness state at the end of the constructor (source lines 49–76):
fresh maps, then `this.localState = {}`. -/
def Awareness.initial (clientID : Nat) (ts : Nat) : Awareness :=
  (Awareness.setLocalState ⟨clientID, fun _ => none, fun _ => none⟩ (some "\x7b\x7d") ts).aw

-- ===================================================================== --
-- sync.ts
-- ===================================================================== --

def SyncMessageType.syncStep1 : Nat := 0

def SyncMessageType.syncStep2 : Nat := 1

def SyncMessageType.update : Nat := 2

/-- An incoming sync frame after the `sync` message tag: the sub-tag plus its
varbytes payload. -/
inductive SyncMsg where
  | syncStep1 (stateVector : List Nat)
  | syncStep2 (updateBytes : List Nat)
  | update (updateBytes : List Nat)
deriving DecidableEq, Repr

/-- The document engine is an external collaborator; `Y.applyUpdate` is
modelled as appending to a log of applied update blobs. -/
structure YDoc where
  appliedUpdates : List (List Nat)
deriving DecidableEq, Repr

/-- `readSyncStep2`: apply the contained update to the document. -/
def readSyncStep2 (doc : YDoc) (u : List Nat) : YDoc :=
  { appliedUpdates := doc.appliedUpdates ++ [u] }

/-- `export const readUpdate = readSyncStep2` — the alias from the source. -/
def readUpdate : YDoc → List Nat → YDoc := readSyncStep2

/-- `readSyncMessage` (source sync.ts lines 99–112): dispatch on the sub-tag,
apply to the document, and return the sub-tag (`syncStep1` replies with a
`syncStep2` frame, which is an output to the reply encoder, not state). -/
def readSyncMessage (doc : YDoc) (m : SyncMsg) : YDoc × Nat :=
  match m with
  | .syncStep1 _ => (doc, SyncMessageType.syncStep1)
  | .syncStep2 u => (readSyncStep2 doc u, SyncMessageType.syncStep2)
  | .update u => (readUpdate doc u, SyncMessageType.update)

/-- The sub-tag of a sync frame. -/
def SyncMsg.tag : SyncMsg → Nat
  | .syncStep1 _ => SyncMessageType.syncStep1
  | .syncStep2 _ => SyncMessageType.syncStep2
  | .update _ => SyncMessageType.update

-- ===================================================================== --
-- WebSocketProvider (part_000)
-- ===================================================================== --

/-- The provider state the verified claims touch: the `synced` flag, user
connection intent, local-bus subscription, socket reference, the document
and the awareness engine. -/
structure WebSocketProvider where
  synced : Bool
  shouldConnect : Bool
  broadcastConnected : Bool
  socketPresent : Bool
  doc : YDoc
  awareness : Awareness

/-- `readMessageSync` (source lines 192–199): run `readSyncMessage`, then
flip `synced` to true only if `emitSynced` and the sub-tag was `syncStep2`
(the `synced` setter ignores writes of the current value). -/
def WebSocketProvider.readMessageSync (p : WebSocketProvider) (m : SyncMsg)
    (emitSynced : Bool) : WebSocketProvider :=
  let res := readSyncMessage p.doc m
  let p1 : WebSocketProvider := { p with doc := res.1 }
  if emitSynced && decide (res.2 = SyncMessageType.syncStep2) && !p1.synced then
    { p1 with synced := true }
  else p1

/-- `disconnectBroadcast` (source lines 335–347): encode the local client
against an empty states map (an all-null snapshot), publish it, and
unsubscribe from the bus — but return early, before unsubscribing, when the
encode aborts. -/
def WebSocketProvider.disconnectBroadcast (p : WebSocketProvider) : WebSocketProvider :=
  match Awareness.encodeUpdate p.awareness [p.awareness.clientID] (fun _ => none) with
  | none => p
  | some _ =>
    if p.broadcastConnected then { p with broadcastConnected := false } else p

/-- `disconnect()` (source lines 156–160): clear `shouldConnect`, run
`disconnectBroadcast`, and close the socket if one exists.  The returned
`Bool` records whether `socket.close()` was invoked. -/
def WebSocketProvider.disconnect (p : WebSocketProvider) : WebSocketProvider × Bool :=
  let p1 := WebSocketProvider.disconnectBroadcast { p with shouldConnect := false }
  (p1, p1.socketPresent)

-- ===================================================================== --
-- Reconnect backoff (setupWebsocket onclose/onopen, source lines 244–268)
-- ===================================================================== --

/-- The connection fields of the provider that drive the backoff. -/
structure WsConnState where
  webSocketConnected : Bool
  webSocketUnsuccessfulReconnects : Nat
deriving DecidableEq, Repr

/-- `socket.onclose` effect on the connection fields: a close after having
been connected resets the flag; a close of a never-connected attempt
increments `webSocketUnsuccessfulReconnects`. -/
def handleCloseConn (s : WsConnState) : WsConnState :=
  if s.webSocketConnected then
    { webSocketConnected := false,
      webSocketUnsuccessfulReconnects := s.webSocketUnsuccessfulReconnects }
  else
    { s with webSocketUnsuccessfulReconnects := s.webSocketUnsuccessfulReconnects + 1 }

/-- `Math.min(Math.pow(2, this.webSocketUnsuccessfulReconnects) * 100,
this._config.maxBackoffTime)`, evaluated after the close handling. -/
def nextReconnectDelay (maxBackoffTime : Nat) (s : WsConnState) : Nat :=
  min (2 ^ s.webSocketUnsuccessfulReconnects * 100) maxBackoffTime

/-- `socket.onopen` effect: connected, and the counter resets to zero. -/
def handleOpenConn (_s : WsConnState) : WsConnState :=
  { webSocketConnected := true, webSocketUnsuccessfulReconnects := 0 }

/-- `n` consecutive socket closes applied to a state. -/
def closesFrom (s : WsConnState) : Nat → WsConnState
  | 0 => s
  | n + 1 => handleCloseConn (closesFrom s n)

/-- A fresh connection attempt: not yet connected, no failed reconnects. -/
def freshConnAttempt : WsConnState :=
  { webSocketConnected := false, webSocketUnsuccessfulReconnects := 0 }

/-- The reconnect delay scheduled by the `n`-th consecutive unsuccessful
close starting from a fresh attempt. -/
def nthUnsuccessfulDelay (maxBackoffTime n : Nat) : Nat :=
  nextReconnectDelay maxBackoffTime (closesFrom freshConnAttempt n)

-- ===================================================================== --
-- removeStates lemmas
-- ===================================================================== --

/-- The state part of `removeStates` alone. -/
def Awareness.removeAll (ts : Nat) (aw : Awareness) (clients : List Nat) : Awareness :=
  clients.foldl (Awareness.removeStepAw ts) aw

-- ===================================================================== --
-- removeStates: clock bump and event conditions
-- ===================================================================== --

/-- The local self-invariant needed by `removeStates`: if the local entry is
in `states`, it also has a `meta` entry. -/
def Awareness.SelfMetaInv (aw : Awareness) : Prop :=
  (aw.states aw.clientID).isSome → (aw.meta aw.clientID).isSome

-- ===================================================================== --
-- The states-meta invariant and its preservation
-- ===================================================================== --

/-- Invariant: every key of `states` is also a key of `meta`. -/
def Awareness.StatesMetaInv (aw : Awareness) : Prop :=
  ∀ k, (aw.states k).isSome → (aw.meta k).isSome

-- ===================================================================== --
-- Concrete instances for the witnesses
-- ===================================================================== --

/-- Scenario B state: local client 7, local state the JSON text of the object
with field name = a, meta clock 3. -/
def awScenarioB : Awareness :=
  ⟨7, fun k => if k = 7 then some "\x7b\"name\":\"a\"\x7d" else none,
    fun k => if k = 7 then some ⟨3, 0⟩ else none⟩

/-- Scenario C state: known clock of client 9 is 5. -/
def awScenarioC : Awareness :=
  ⟨1, fun _ => none, fun k => if k = 9 then some ⟨5, 0⟩ else none⟩

/-- A state where the local client (id 1) has a meta entry of clock 5 but no
`states` entry (as after a previous `removeStates [1]`). -/
def awNoLocalState : Awareness :=
  ⟨1, fun _ => none, fun k => if k = 1 then some ⟨5, 0⟩ else none⟩

/-- A small state with local client 3 present. -/
def awLocal3 : Awareness :=
  ⟨3, fun k => if k = 3 then some "\x7b\x7d" else none,
    fun k => if k = 3 then some ⟨1, 0⟩ else none⟩

/-- An empty awareness state with local client 1. -/
def awEmpty : Awareness := ⟨1, fun _ => none, fun _ => none⟩

/-- A state with local client 4 carrying only a meta entry. -/
def awMeta4 : Awareness :=
  ⟨4, fun _ => none, fun k => if k = 4 then some ⟨0, 0⟩ else none⟩

/-- A provider whose awareness engine knows the local clock (client 2). -/
def providerW : WebSocketProvider :=
  ⟨true, true, true, true, ⟨[]⟩,
    ⟨2, fun _ => none, fun k => if k = 2 then some ⟨0, 0⟩ else none⟩⟩

theorem mapInsert_self {α : Type} (m : Nat → Option α) (k : Nat) (v : α) :
    mapInsert m k v k = some v := by simp [mapInsert]

theorem mapInsert_ne {α : Type} (m : Nat → Option α) (k x : Nat) (v : α) (h : x ≠ k) :
    mapInsert m k v x = m x := by simp [mapInsert, h]

theorem mapRemove_self {α : Type} (m : Nat → Option α) (k : Nat) :
    mapRemove m k k = none := by simp [mapRemove]

theorem mapRemove_ne {α : Type} (m : Nat → Option α) (k x : Nat) (h : x ≠ k) :
    mapRemove m k x = m x := by simp [mapRemove, h]

theorem mapInsert_isSome_mono {α : Type} (m : Nat → Option α) (k x : Nat) (v : α)
    (h : (m x).isSome) : ((mapInsert m k v) x).isSome := by
  by_cases hx : x = k
  · subst hx; simp [mapInsert]
  · rwa [mapInsert_ne m k x v hx]

theorem Awareness.accepts_iff (aw : Awareness) (r : AwRecord) :
    aw.accepts r = true ↔
      aw.currClock r.clientID < r.clock ∨
        (aw.currClock r.clientID = r.clock ∧ r.state = none ∧
          (aw.states r.clientID).isSome) := by
  simp [Awareness.accepts, Option.isNone_iff_eq_none, and_assoc]

theorem Awareness.accepts_false_iff (aw : Awareness) (r : AwRecord) :
    aw.accepts r = false ↔
      r.clock ≤ aw.currClock r.clientID ∧
        (aw.currClock r.clientID = r.clock →
          ¬(r.state = none ∧ (aw.states r.clientID).isSome)) := by
  rw [← Bool.not_eq_true, Awareness.accepts_iff]
  constructor
  · intro h
    push_neg at h
    exact ⟨h.1, fun he hs => (h.2 he) hs.1 hs.2⟩
  · rintro ⟨h1, h2⟩ (hlt | ⟨he, hs⟩)
    · exact absurd hlt (Nat.not_lt.mpr h1)
    · exact h2 he hs

-- ===================================================================== --
-- Characterisation of applyRecordAw, branch by branch
-- ===================================================================== --

theorem Awareness.applyRecordAw_not_accepts (ts : Nat) (aw : Awareness) (r : AwRecord)
    (h : aw.accepts r = false) : Awareness.applyRecordAw ts aw r = aw := by
  simp [Awareness.applyRecordAw, h]

/-- Accepted null record for the local client while local state is non-null:
the self-defense branch bumps the clock and leaves `states` untouched. -/
theorem Awareness.applyRecordAw_selfDefense (ts : Nat) (aw : Awareness) (cid k : Nat)
    (h : aw.accepts ⟨cid, k, none⟩ = true) (hc : cid = aw.clientID)
    (hs : (aw.states aw.clientID).isSome) :
    Awareness.applyRecordAw ts aw ⟨cid, k, none⟩ =
      { aw with meta := mapInsert aw.meta cid ⟨k + 1, ts⟩ } := by
  subst hc
  simp [Awareness.applyRecordAw, h, hs]

/-- Accepted null record outside the self-defense case: the entry is deleted
from `states` and the incoming clock recorded. -/
theorem Awareness.applyRecordAw_delete (ts : Nat) (aw : Awareness) (cid k : Nat)
    (h : aw.accepts ⟨cid, k, none⟩ = true)
    (hsd : ¬(cid = aw.clientID ∧ (aw.states aw.clientID).isSome)) :
    Awareness.applyRecordAw ts aw ⟨cid, k, none⟩ =
      { aw with states := mapRemove aw.states cid,
                meta := mapInsert aw.meta cid ⟨k, ts⟩ } := by
  simp only [Awareness.applyRecordAw, h, if_true]
  rw [if_neg hsd]

/-- Accepted non-null record: the state is stored and the incoming clock
recorded. -/
theorem Awareness.applyRecordAw_set (ts : Nat) (aw : Awareness) (cid k : Nat) (s0 : String)
    (h : aw.accepts ⟨cid, k, some s0⟩ = true) :
    Awareness.applyRecordAw ts aw ⟨cid, k, some s0⟩ =
      { aw with states := mapInsert aw.states cid s0,
                meta := mapInsert aw.meta cid ⟨k, ts⟩ } := by
  simp [Awareness.applyRecordAw, h]

theorem Awareness.applyRecordAw_clientID (ts : Nat) (aw : Awareness) (r : AwRecord) :
    (Awareness.applyRecordAw ts aw r).clientID = aw.clientID := by
  obtain ⟨cid, k, s⟩ := r
  by_cases h : aw.accepts ⟨cid, k, s⟩ = true
  · cases s with
    | none =>
      by_cases hsd : cid = aw.clientID ∧ (aw.states aw.clientID).isSome
      · rw [Awareness.applyRecordAw_selfDefense ts aw cid k h hsd.1 hsd.2]
      · rw [Awareness.applyRecordAw_delete ts aw cid k h hsd]
    | some s0 => rw [Awareness.applyRecordAw_set ts aw cid k s0 h]
  · rw [Awareness.applyRecordAw_not_accepts ts aw _ (by simpa using h)]

theorem Awareness.applyRecordAw_states_ne (ts : Nat) (aw : Awareness) (r : AwRecord)
    (c : Nat) (h : c ≠ r.clientID) :
    (Awareness.applyRecordAw ts aw r).states c = aw.states c := by
  obtain ⟨cid, k, s⟩ := r
  simp only [AwRecord.clientID] at h
  by_cases hacc : aw.accepts ⟨cid, k, s⟩ = true
  · cases s with
    | none =>
      by_cases hsd : cid = aw.clientID ∧ (aw.states aw.clientID).isSome
      · rw [Awareness.applyRecordAw_selfDefense ts aw cid k hacc hsd.1 hsd.2]
      · rw [Awareness.applyRecordAw_delete ts aw cid k hacc hsd]
        exact mapRemove_ne _ _ _ h
    | some s0 =>
      rw [Awareness.applyRecordAw_set ts aw cid k s0 hacc]
      exact mapInsert_ne _ _ _ _ h
  · rw [Awareness.applyRecordAw_not_accepts ts aw _ (by simpa using hacc)]

theorem Awareness.applyRecordAw_meta_ne (ts : Nat) (aw : Awareness) (r : AwRecord)
    (c : Nat) (h : c ≠ r.clientID) :
    (Awareness.applyRecordAw ts aw r).meta c = aw.meta c := by
  obtain ⟨cid, k, s⟩ := r
  simp only [AwRecord.clientID] at h
  by_cases hacc : aw.accepts ⟨cid, k, s⟩ = true
  · cases s with
    | none =>
      by_cases hsd : cid = aw.clientID ∧ (aw.states aw.clientID).isSome
      · rw [Awareness.applyRecordAw_selfDefense ts aw cid k hacc hsd.1 hsd.2]
        exact mapInsert_ne _ _ _ _ h
      · rw [Awareness.applyRecordAw_delete ts aw cid k hacc hsd]
        exact mapInsert_ne _ _ _ _ h
    | some s0 =>
      rw [Awareness.applyRecordAw_set ts aw cid k s0 hacc]
      exact mapInsert_ne _ _ _ _ h
  · rw [Awareness.applyRecordAw_not_accepts ts aw _ (by simpa using hacc)]

theorem Awareness.currClock_applyRecordAw_ne (ts : Nat) (aw : Awareness) (r : AwRecord)
    (c : Nat) (h : c ≠ r.clientID) :
    (Awareness.applyRecordAw ts aw r).currClock c = aw.currClock c := by
  unfold Awareness.currClock
  rw [Awareness.applyRecordAw_meta_ne ts aw r c h]

-- ===================================================================== --
-- A record is rejected immediately after it has been applied
-- ===================================================================== --

theorem Awareness.accepts_applyRecordAw_self (ts : Nat) (aw : Awareness) (r : AwRecord) :
    (Awareness.applyRecordAw ts aw r).accepts r = false := by
  obtain ⟨cid, k, s⟩ := r
  by_cases h : aw.accepts ⟨cid, k, s⟩ = true
  · cases s with
    | none =>
      by_cases hsd : cid = aw.clientID ∧ (aw.states aw.clientID).isSome
      · rw [Awareness.applyRecordAw_selfDefense ts aw cid k h hsd.1 hsd.2,
          Awareness.accepts_false_iff]
        constructor
        · simp [Awareness.currClock, mapInsert]
        · simp [Awareness.currClock, mapInsert]
      · rw [Awareness.applyRecordAw_delete ts aw cid k h hsd,
          Awareness.accepts_false_iff]
        constructor
        · simp [Awareness.currClock, mapInsert]
        · intro _ hx
          have := hx.2
          simp [mapRemove] at this
    | some s0 =>
      rw [Awareness.applyRecordAw_set ts aw cid k s0 h, Awareness.accepts_false_iff]
      constructor
      · simp [Awareness.currClock, mapInsert]
      · intro _ hx
        exact absurd hx.1 (by simp)
  · have h' : aw.accepts ⟨cid, k, s⟩ = false := by simpa using h
    rw [Awareness.applyRecordAw_not_accepts ts aw _ h']
    exact h'

-- ===================================================================== --
-- Rejection is stable under applying further records
-- ===================================================================== --

theorem Awareness.accepts_false_preserved (ts : Nat) (aw : Awareness) (r r' : AwRecord)
    (h : aw.accepts r = false) :
    (Awareness.applyRecordAw ts aw r').accepts r = false := by
  by_cases hacc : aw.accepts r' = true
  case neg =>
    rw [Awareness.applyRecordAw_not_accepts ts aw r' (by simpa using hacc)]
    exact h
  case pos =>
    by_cases hc : r.clientID = r'.clientID
    case neg =>
      rw [Awareness.accepts_false_iff] at h ⊢
      rw [Awareness.currClock_applyRecordAw_ne ts aw r' _ hc,
        Awareness.applyRecordAw_states_ne ts aw r' _ hc]
      exact h
    case pos =>
      rw [Awareness.accepts_false_iff] at h
      obtain ⟨hle, heq⟩ := h
      obtain ⟨cid', k', s'⟩ := r'
      simp only [AwRecord.clientID] at hc
      rw [hc] at hle heq
      have hK : aw.currClock cid' < k' ∨
          (aw.currClock cid' = k' ∧ s' = none ∧ (aw.states cid').isSome) := by
        have := (Awareness.accepts_iff aw ⟨cid', k', s'⟩).mp hacc
        simpa using this
      rw [Awareness.accepts_false_iff, hc]
      cases s' with
      | some s0 =>
        have hlt : aw.currClock cid' < k' := by
          rcases hK with h1 | ⟨_, h2, _⟩
          · exact h1
          · exact absurd h2 (by simp)
        rw [Awareness.applyRecordAw_set ts aw cid' k' s0 hacc]
        constructor
        · simp only [Awareness.currClock, mapInsert_self]
          omega
        · simp only [Awareness.currClock, mapInsert_self]
          intro hk
          omega
      | none =>
        have hKle : aw.currClock cid' ≤ k' := by
          rcases hK with h1 | ⟨h2, _, _⟩
          · exact Nat.le_of_lt h1
          · exact Nat.le_of_eq h2
        by_cases hsd : cid' = aw.clientID ∧ (aw.states aw.clientID).isSome
        · rw [Awareness.applyRecordAw_selfDefense ts aw cid' k' hacc hsd.1 hsd.2]
          constructor
          · simp only [Awareness.currClock, mapInsert_self]
            omega
          · simp only [Awareness.currClock, mapInsert_self]
            intro hk
            omega
        · rw [Awareness.applyRecordAw_delete ts aw cid' k' hacc hsd]
          constructor
          · simp only [Awareness.currClock, mapInsert_self]
            omega
          · intro _ hx
            have := hx.2
            simp [mapRemove] at this

-- ===================================================================== --
-- The fold: state component and all-rejected runs
-- ===================================================================== --

theorem Awareness.applyRecordStep_aw (ts : Nat) (acc : ApplyResult) (r : AwRecord) :
    (Awareness.applyRecordStep ts acc r).aw = Awareness.applyRecordAw ts acc.aw r := by
  by_cases h : acc.aw.accepts r = true
  · simp only [Awareness.applyRecordStep, h, if_true]
    split
    · rfl
    · split
      · rfl
      · split <;> rfl
  · have h' : acc.aw.accepts r = false := by simpa using h
    simp only [Awareness.applyRecordStep, h', Bool.false_eq_true, if_false]
    rw [Awareness.applyRecordAw_not_accepts ts acc.aw r h']

theorem Awareness.applyRecordStep_not_accepts (ts : Nat) (acc : ApplyResult) (r : AwRecord)
    (h : acc.aw.accepts r = false) : Awareness.applyRecordStep ts acc r = acc := by
  simp [Awareness.applyRecordStep, h]

theorem Awareness.foldl_applyRecordStep_aw (ts : Nat) (l : List AwRecord)
    (acc : ApplyResult) :
    (List.foldl (Awareness.applyRecordStep ts) acc l).aw =
      Awareness.applyRecords ts acc.aw l := by
  induction l generalizing acc with
  | nil => rfl
  | cons r rest ih =>
    rw [List.foldl_cons, ih, Awareness.applyRecordStep_aw]
    rfl

theorem Awareness.applyUpdate_aw (aw : Awareness) (l : List AwRecord) (ts : Nat) :
    (Awareness.applyUpdate aw l ts).aw = Awareness.applyRecords ts aw l :=
  Awareness.foldl_applyRecordStep_aw ts l ⟨aw, [], [], [], []⟩

/-- A run in which every record is rejected (against the initial state) is a
complete no-op: rejected records change nothing, so the state never moves. -/
theorem Awareness.foldl_all_rejected (ts : Nat) (l : List AwRecord) (acc : ApplyResult)
    (h : ∀ r ∈ l, acc.aw.accepts r = false) :
    List.foldl (Awareness.applyRecordStep ts) acc l = acc := by
  induction l with
  | nil => rfl
  | cons r rest ih =>
    rw [List.foldl_cons, Awareness.applyRecordStep_not_accepts ts acc r (h r (by simp))]
    exact ih fun r' hr' => h r' (by simp [hr'])

theorem Awareness.applyUpdate_all_rejected (aw : Awareness) (l : List AwRecord) (ts : Nat)
    (h : ∀ r ∈ l, aw.accepts r = false) :
    Awareness.applyUpdate aw l ts = ⟨aw, [], [], [], []⟩ :=
  Awareness.foldl_all_rejected ts l ⟨aw, [], [], [], []⟩ h

theorem Awareness.accepts_false_applyRecords (ts : Nat) (aw : Awareness) (r : AwRecord)
    (l : List AwRecord) (h : aw.accepts r = false) :
    (Awareness.applyRecords ts aw l).accepts r = false := by
  induction l generalizing aw with
  | nil => exact h
  | cons r' rest ih =>
    rw [Awareness.applyRecords, List.foldl_cons]
    exact ih (Awareness.applyRecordAw ts aw r') (Awareness.accepts_false_preserved ts aw r r' h)

/-- After a whole blob has been applied, every record of that blob is
rejected by the resulting state. -/
theorem Awareness.all_rejected_after (ts : Nat) (aw : Awareness) (l : List AwRecord) :
    ∀ r ∈ l, (Awareness.applyRecords ts aw l).accepts r = false := by
  induction l generalizing aw with
  | nil => intro r hr; cases hr
  | cons r0 rest ih =>
    intro r hr
    rw [Awareness.applyRecords, List.foldl_cons]
    rcases List.mem_cons.mp hr with rfl | hr'
    · exact Awareness.accepts_false_applyRecords ts _ r rest
        (Awareness.accepts_applyRecordAw_self ts aw r)
    · exact ih (Awareness.applyRecordAw ts aw r0) r hr'

/-- Record-level idempotence: re-applying an already applied record list to
the resulting state mutates nothing and classifies nothing. -/
theorem Awareness.applyUpdate_idem (aw : Awareness) (l : List AwRecord) (t1 t2 : Nat) :
    Awareness.applyUpdate (Awareness.applyUpdate aw l t1).aw l t2 =
      ⟨(Awareness.applyUpdate aw l t1).aw, [], [], [], []⟩ := by
  apply Awareness.applyUpdate_all_rejected
  intro r hr
  rw [Awareness.applyUpdate_aw]
  exact Awareness.all_rejected_after t1 aw l r hr

-- ===================================================================== --
-- Codec round-trip lemmas
-- ===================================================================== --

theorem decodeRecords_encodeRecords (aw : Awareness) (clients : List Nat)
    (statesMap : Nat → Option String) (body rest : List WireItem)
    (h : Awareness.encodeRecords aw clients statesMap = some body) :
    decodeRecords clients.length (body ++ rest) =
      some (clients.map fun c => ⟨c, aw.currClock c, statesMap c⟩, rest) := by
  induction clients generalizing body with
  | nil =>
    simp only [Awareness.encodeRecords, Option.some.injEq] at h
    subst h
    simp [decodeRecords]
  | cons c cs ih =>
    simp only [Awareness.encodeRecords] at h
    cases hm : aw.meta c with
    | none => rw [hm] at h; cases h
    | some m =>
      rw [hm] at h
      cases he : Awareness.encodeRecords aw cs statesMap with
      | none => rw [he] at h; cases h
      | some tail =>
        rw [he] at h
        simp only [Option.map_some', Option.some.injEq] at h
        subst h
        simp only [List.length_cons, List.cons_append, decodeRecords,
          readVarUintItem, readJsonItem, Option.bind_eq_bind, Option.some_bind]
        rw [ih tail he]
        simp [Awareness.currClock, hm]

theorem Awareness.encodeUpdate_decodeBlob (aw : Awareness) (clients : List Nat)
    (statesMap : Nat → Option String) (items : List WireItem)
    (h : Awareness.encodeUpdate aw clients statesMap = some items) :
    decodeBlob items =
      some (clients.map fun c => ⟨c, aw.currClock c, statesMap c⟩) := by
  unfold Awareness.encodeUpdate at h
  cases he : Awareness.encodeRecords aw clients statesMap with
  | none => rw [he] at h; cases h
  | some body =>
    rw [he] at h
    simp only [Option.map_some', Option.some.injEq] at h
    subst h
    have hd := decodeRecords_encodeRecords aw clients statesMap body [] he
    rw [List.append_nil] at hd
    simp only [decodeBlob, readVarUintItem, Option.bind_eq_bind, Option.some_bind]
    rw [hd]
    rfl

theorem Awareness.encodeRecords_isSome_iff (aw : Awareness) (clients : List Nat)
    (statesMap : Nat → Option String) :
    (Awareness.encodeRecords aw clients statesMap).isSome ↔
      ∀ c ∈ clients, (aw.meta c).isSome := by
  induction clients with
  | nil => simp [Awareness.encodeRecords]
  | cons c cs ih =>
    simp only [Awareness.encodeRecords]
    cases hm : aw.meta c with
    | none => simp [hm]
    | some m =>
      cases he : Awareness.encodeRecords aw cs statesMap with
      | none =>
        rw [he] at ih
        simp only [Option.isSome_none, Bool.false_eq_true, false_iff] at ih
        simp only [Option.map_none', Option.isSome_none, Bool.false_eq_true, false_iff]
        intro hall
        exact ih fun x hx => hall x (by simp [hx])
      | some tail =>
        rw [he] at ih
        simp only [Option.isSome_some, true_iff] at ih
        simp only [Option.map_some', Option.isSome_some, true_iff]
        intro x hx
        rcases List.mem_cons.mp hx with rfl | hx'
        · simp [hm]
        · exact ih x hx'

theorem Awareness.encodeUpdate_isSome_iff (aw : Awareness) (clients : List Nat)
    (statesMap : Nat → Option String) :
    (Awareness.encodeUpdate aw clients statesMap).isSome ↔
      ∀ c ∈ clients, (aw.meta c).isSome := by
  rw [← Awareness.encodeRecords_isSome_iff aw clients statesMap]
  unfold Awareness.encodeUpdate
  cases Awareness.encodeRecords aw clients statesMap <;> simp

theorem Awareness.removeStepAw_not_has (ts : Nat) (aw : Awareness) (c : Nat)
    (h : ¬((aw.states c).isSome = true)) : Awareness.removeStepAw ts aw c = aw := by
  unfold Awareness.removeStepAw
  rw [if_neg h]

theorem Awareness.removeStepAw_clientID (ts : Nat) (aw : Awareness) (c : Nat) :
    (Awareness.removeStepAw ts aw c).clientID = aw.clientID := by
  unfold Awareness.removeStepAw
  split
  · split
    · split <;> rfl
    · rfl
  · rfl

theorem Awareness.removeStepAw_states_self (ts : Nat) (aw : Awareness) (c : Nat) :
    (Awareness.removeStepAw ts aw c).states c = none := by
  by_cases h : (aw.states c).isSome = true
  · unfold Awareness.removeStepAw
    rw [if_pos h]
    split
    · split <;> simp [mapRemove]
    · simp [mapRemove]
  · rw [Awareness.removeStepAw_not_has ts aw c h]
    simpa using h

theorem Awareness.removeStepAw_states_ne (ts : Nat) (aw : Awareness) (c x : Nat)
    (h : x ≠ c) : (Awareness.removeStepAw ts aw c).states x = aw.states x := by
  by_cases hh : (aw.states c).isSome = true
  · unfold Awareness.removeStepAw
    rw [if_pos hh]
    split
    · split <;> simp [mapRemove, h]
    · simp [mapRemove, h]
  · rw [Awareness.removeStepAw_not_has ts aw c hh]

theorem Awareness.removeStepAw_meta_of_ne_client (ts : Nat) (aw : Awareness) (c : Nat)
    (h : c ≠ aw.clientID) : (Awareness.removeStepAw ts aw c).meta = aw.meta := by
  by_cases hh : (aw.states c).isSome = true
  · unfold Awareness.removeStepAw
    rw [if_pos hh, if_neg h]
  · rw [Awareness.removeStepAw_not_has ts aw c hh]

/-- Deleting the local client that is present and has a meta entry bumps the
clock and refreshes the timestamp. -/
theorem Awareness.removeStepAw_self_bump (ts : Nat) (aw : Awareness) (m : MetaClientState)
    (hs : (aw.states aw.clientID).isSome = true) (hm : aw.meta aw.clientID = some m) :
    (Awareness.removeStepAw ts aw aw.clientID).meta aw.clientID =
      some ⟨m.clock + 1, ts⟩ := by
  unfold Awareness.removeStepAw
  rw [if_pos hs, if_pos rfl, hm]
  simp [mapInsert]

/-- `removeStepAw` never touches `meta` at a key `x` once `states x` is gone:
either the processed client differs from the local one (meta untouched), or
the step is a no-op. -/
theorem Awareness.removeStepAw_meta_stable (ts : Nat) (aw : Awareness) (c x : Nat)
    (h : aw.states x = none ∨ x ≠ aw.clientID) :
    (Awareness.removeStepAw ts aw c).meta x = aw.meta x := by
  by_cases hc : c = aw.clientID
  · by_cases hh : (aw.states c).isSome = true
    · rcases h with h | h
      · subst hc
        by_cases hx : x = aw.clientID
        · rw [hx] at h
          rw [h] at hh
          cases hh
        · unfold Awareness.removeStepAw
          rw [if_pos hh, if_pos rfl]
          split
          · rfl
          · exact mapInsert_ne _ _ _ _ hx
      · subst hc
        unfold Awareness.removeStepAw
        rw [if_pos hh, if_pos rfl]
        split
        · rfl
        · exact mapInsert_ne _ _ _ _ h
    · rw [Awareness.removeStepAw_not_has ts aw c hh]
  · rw [Awareness.removeStepAw_meta_of_ne_client ts aw c hc]

theorem Awareness.removeStepAw_states_none_mono (ts : Nat) (aw : Awareness) (c x : Nat)
    (h : aw.states x = none) : (Awareness.removeStepAw ts aw c).states x = none := by
  by_cases hx : x = c
  · subst hx; exact Awareness.removeStepAw_states_self ts aw x
  · rw [Awareness.removeStepAw_states_ne ts aw c x hx]; exact h

theorem Awareness.removeStepAw_meta_isSome_mono (ts : Nat) (aw : Awareness) (c x : Nat)
    (h : (aw.meta x).isSome) : ((Awareness.removeStepAw ts aw c).meta x).isSome := by
  by_cases hh : (aw.states c).isSome = true
  · unfold Awareness.removeStepAw
    rw [if_pos hh]
    split
    · split
      · exact h
      · exact mapInsert_isSome_mono _ _ _ _ h
    · exact h
  · rw [Awareness.removeStepAw_not_has ts aw c hh]; exact h

theorem Awareness.removeAll_clientID (ts : Nat) (aw : Awareness) (l : List Nat) :
    (Awareness.removeAll ts aw l).clientID = aw.clientID := by
  induction l generalizing aw with
  | nil => rfl
  | cons c cs ih =>
    rw [Awareness.removeAll, List.foldl_cons]
    rw [show List.foldl (Awareness.removeStepAw ts) (Awareness.removeStepAw ts aw c) cs =
      Awareness.removeAll ts (Awareness.removeStepAw ts aw c) cs from rfl]
    rw [ih, Awareness.removeStepAw_clientID]

theorem Awareness.removeAll_states_none_mono (ts : Nat) (aw : Awareness) (l : List Nat)
    (x : Nat) (h : aw.states x = none) : (Awareness.removeAll ts aw l).states x = none := by
  induction l generalizing aw with
  | nil => exact h
  | cons c cs ih =>
    rw [Awareness.removeAll, List.foldl_cons]
    exact ih (Awareness.removeStepAw ts aw c) (Awareness.removeStepAw_states_none_mono ts aw c x h)

theorem Awareness.removeAll_meta_stable (ts : Nat) (aw : Awareness) (l : List Nat) (x : Nat)
    (h : aw.states x = none ∨ x ≠ aw.clientID) :
    (Awareness.removeAll ts aw l).meta x = aw.meta x := by
  induction l generalizing aw with
  | nil => rfl
  | cons c cs ih =>
    rw [Awareness.removeAll, List.foldl_cons]
    have hstep := Awareness.removeStepAw_meta_stable ts aw c x h
    have h' : (Awareness.removeStepAw ts aw c).states x = none ∨
        x ≠ (Awareness.removeStepAw ts aw c).clientID := by
      rcases h with h | h
      · exact Or.inl (Awareness.removeStepAw_states_none_mono ts aw c x h)
      · rw [Awareness.removeStepAw_clientID]
        exact Or.inr h
    rw [show List.foldl (Awareness.removeStepAw ts) (Awareness.removeStepAw ts aw c) cs =
      Awareness.removeAll ts (Awareness.removeStepAw ts aw c) cs from rfl]
    rw [ih _ h', hstep]

theorem Awareness.foldl_removeStep_aw (ts : Nat) (l : List Nat) (acc : RemoveResult) :
    (List.foldl (Awareness.removeStep ts) acc l).aw = Awareness.removeAll ts acc.aw l := by
  induction l generalizing acc with
  | nil => rfl
  | cons c cs ih =>
    rw [List.foldl_cons, ih]
    have hstep : (Awareness.removeStep ts acc c).aw = Awareness.removeStepAw ts acc.aw c := by
      unfold Awareness.removeStep
      split
      · split <;> rfl
      · next h =>
        rw [Awareness.removeStepAw_not_has ts acc.aw c h]
    rw [hstep]
    rfl

theorem Awareness.removeStates_aw (aw : Awareness) (clients : List Nat) (ts : Nat) :
    (Awareness.removeStates aw clients ts).aw = Awareness.removeAll ts aw clients :=
  Awareness.foldl_removeStep_aw ts clients ⟨aw, []⟩

theorem Awareness.selfMetaInv_removeStepAw (ts : Nat) (aw : Awareness) (c : Nat)
    (h : Awareness.SelfMetaInv aw) : Awareness.SelfMetaInv (Awareness.removeStepAw ts aw c) := by
  intro hs
  rw [Awareness.removeStepAw_clientID] at hs ⊢
  by_cases hx : aw.clientID = c
  · rw [hx] at hs
    rw [Awareness.removeStepAw_states_self] at hs
    cases hs
  · rw [Awareness.removeStepAw_states_ne ts aw c _ hx] at hs
    exact (Awareness.removeStepAw_meta_isSome_mono ts aw c _ (h hs))

/-- If the local client is listed and currently present (and carries a meta
entry, as the invariant guarantees), `removeStates` bumps `meta[self].clock`
by exactly one. -/
theorem Awareness.removeAll_self_bump (ts : Nat) (aw : Awareness) (clients : List Nat)
    (hInv : Awareness.SelfMetaInv aw)
    (hmem : aw.clientID ∈ clients) (hs : (aw.states aw.clientID).isSome = true) :
    (Awareness.removeAll ts aw clients).currClock aw.clientID =
      aw.currClock aw.clientID + 1 := by
  induction clients generalizing aw with
  | nil => cases hmem
  | cons c cs ih =>
    rw [Awareness.removeAll, List.foldl_cons]
    rw [show List.foldl (Awareness.removeStepAw ts) (Awareness.removeStepAw ts aw c) cs =
      Awareness.removeAll ts (Awareness.removeStepAw ts aw c) cs from rfl]
    by_cases hc : c = aw.clientID
    · subst hc
      obtain ⟨m, hm⟩ := Option.isSome_iff_exists.mp (hInv hs)
      have hbump := Awareness.removeStepAw_self_bump ts aw m hs hm
      have hstable : (Awareness.removeAll ts (Awareness.removeStepAw ts aw aw.clientID) cs).meta
          aw.clientID = (Awareness.removeStepAw ts aw aw.clientID).meta aw.clientID := by
        rw [show aw.clientID = (Awareness.removeStepAw ts aw aw.clientID).clientID from
          (Awareness.removeStepAw_clientID ts aw aw.clientID).symm]
        apply Awareness.removeAll_meta_stable
        left
        rw [Awareness.removeStepAw_clientID]
        exact Awareness.removeStepAw_states_self ts aw aw.clientID
      unfold Awareness.currClock
      rw [hstable, hbump, hm]
    · have hc' : aw.clientID ≠ c := fun hh => hc hh.symm
      have hmem' : aw.clientID ∈ cs := by
        rcases List.mem_cons.mp hmem with h | h
        · exact absurd h.symm hc
        · exact h
      have hs' : ((Awareness.removeStepAw ts aw c).states
          (Awareness.removeStepAw ts aw c).clientID).isSome = true := by
        rw [Awareness.removeStepAw_clientID, Awareness.removeStepAw_states_ne ts aw c _ hc']
        exact hs
      have hInv' := Awareness.selfMetaInv_removeStepAw ts aw c hInv
      have hcur : (Awareness.removeStepAw ts aw c).currClock aw.clientID =
          aw.currClock aw.clientID := by
        unfold Awareness.currClock
        rw [Awareness.removeStepAw_meta_of_ne_client ts aw c hc]
      have := ih (Awareness.removeStepAw ts aw c)
      rw [Awareness.removeStepAw_clientID] at this
      rw [this hInv' hmem' (by rw [Awareness.removeStepAw_clientID] at hs'; exact hs'), hcur]

/-- The `removed` list is empty iff no listed client was present in `states`
(under the self invariant).  Both events fire iff `removed` is non-empty. -/
theorem Awareness.foldl_removeStep_removed_nil_iff (ts : Nat) (l : List Nat) :
    ∀ (aw : Awareness) (rem : List Nat), Awareness.SelfMetaInv aw →
      ((List.foldl (Awareness.removeStep ts) ⟨aw, rem⟩ l).removed = [] ↔
        rem = [] ∧ ∀ c ∈ l, aw.states c = none) := by
  induction l with
  | nil => intro aw rem _; simp
  | cons c cs ih =>
    intro aw rem hInv
    rw [List.foldl_cons]
    by_cases h1 : (aw.states c).isSome = true
    · have h2 : ¬(c = aw.clientID ∧ aw.meta c = none) := by
        rintro ⟨hc, hm⟩
        subst hc
        have := hInv h1
        rw [hm] at this
        cases this
      have hstep : Awareness.removeStep ts ⟨aw, rem⟩ c =
          ⟨Awareness.removeStepAw ts aw c, rem ++ [c]⟩ := by
        unfold Awareness.removeStep
        rw [if_pos h1, if_neg h2]
      rw [hstep, ih _ _ (Awareness.selfMetaInv_removeStepAw ts aw c hInv)]
      constructor
      · rintro ⟨habs, -⟩
        exact absurd habs (by simp)
      · rintro ⟨-, hall⟩
        have := hall c (by simp)
        rw [this] at h1
        cases h1
    · have hstep : Awareness.removeStep ts ⟨aw, rem⟩ c = ⟨aw, rem⟩ := by
        unfold Awareness.removeStep
        rw [if_neg h1]
      rw [hstep, ih _ _ hInv]
      have h1' : aw.states c = none := by
        cases hh : aw.states c
        · rfl
        · rw [hh] at h1; simp at h1
      constructor
      · rintro ⟨hr, hall⟩
        exact ⟨hr, fun x hx => by
          rcases List.mem_cons.mp hx with rfl | hx'
          · exact h1'
          · exact hall x hx'⟩
      · rintro ⟨hr, hall⟩
        exact ⟨hr, fun x hx => hall x (by simp [hx])⟩

theorem Awareness.removeStates_removed_nil_iff (aw : Awareness) (clients : List Nat)
    (ts : Nat) (hInv : Awareness.SelfMetaInv aw) :
    (Awareness.removeStates aw clients ts).removed = [] ↔
      ∀ c ∈ clients, aw.states c = none := by
  have := Awareness.foldl_removeStep_removed_nil_iff ts clients aw [] hInv
  rw [Awareness.removeStates]
  rw [this]
  simp

-- ===================================================================== --
-- setLocalState characterisation
-- ===================================================================== --

theorem Awareness.setLocalState_clientID (aw : Awareness) (st : Option String) (ts : Nat) :
    (Awareness.setLocalState aw st ts).aw.clientID = aw.clientID := by
  cases st with
  | none => rfl
  | some s =>
    by_cases hp : aw.states aw.clientID = none
    · simp [Awareness.setLocalState, hp]
    · simp [Awareness.setLocalState, hp]

theorem Awareness.setLocalState_aw_states_none (aw : Awareness) (ts : Nat) :
    (Awareness.setLocalState aw none ts).aw.states = mapRemove aw.states aw.clientID := rfl

theorem Awareness.setLocalState_aw_states_some (aw : Awareness) (s : String) (ts : Nat) :
    (Awareness.setLocalState aw (some s) ts).aw.states =
      mapInsert aw.states aw.clientID s := by
  by_cases hp : aw.states aw.clientID = none
  · simp [Awareness.setLocalState, hp]
  · simp [Awareness.setLocalState, hp]

theorem Awareness.setLocalState_aw_meta (aw : Awareness) (st : Option String) (ts : Nat) :
    (Awareness.setLocalState aw st ts).aw.meta =
      mapInsert aw.meta aw.clientID
        ⟨(match aw.meta aw.clientID with
           | none => 0
           | some currLocalMeta => currLocalMeta.clock + 1), ts⟩ := by
  cases st with
  | none => rfl
  | some s =>
    by_cases hp : aw.states aw.clientID = none
    · simp [Awareness.setLocalState, hp]
    · simp [Awareness.setLocalState, hp]

theorem Awareness.setLocalState_meta_isSome_mono (aw : Awareness) (st : Option String)
    (ts : Nat) (x : Nat) (h : (aw.meta x).isSome) :
    ((Awareness.setLocalState aw st ts).aw.meta x).isSome := by
  rw [Awareness.setLocalState_aw_meta]
  exact mapInsert_isSome_mono _ _ _ _ h

theorem Awareness.statesMetaInv_setLocalState (aw : Awareness) (st : Option String)
    (ts : Nat) (h : Awareness.StatesMetaInv aw) :
    Awareness.StatesMetaInv (Awareness.setLocalState aw st ts).aw := by
  intro k hk
  rw [Awareness.setLocalState_aw_meta]
  by_cases hkc : k = aw.clientID
  · subst hkc
    simp [mapInsert]
  · rw [mapInsert_ne _ _ _ _ hkc]
    apply h
    cases st with
    | none =>
      rw [Awareness.setLocalState_aw_states_none, mapRemove_ne _ _ _ hkc] at hk
      exact hk
    | some s =>
      rw [Awareness.setLocalState_aw_states_some, mapInsert_ne _ _ _ _ hkc] at hk
      exact hk

theorem Awareness.applyRecordAw_meta_self_isSome (ts : Nat) (aw : Awareness) (r : AwRecord)
    (hacc : aw.accepts r = true) :
    ((Awareness.applyRecordAw ts aw r).meta r.clientID).isSome := by
  obtain ⟨cid, k, s⟩ := r
  cases s with
  | none =>
    by_cases hsd : cid = aw.clientID ∧ (aw.states aw.clientID).isSome
    · rw [Awareness.applyRecordAw_selfDefense ts aw cid k hacc hsd.1 hsd.2]
      simp [mapInsert]
    · rw [Awareness.applyRecordAw_delete ts aw cid k hacc hsd]
      simp [mapInsert]
  | some s0 =>
    rw [Awareness.applyRecordAw_set ts aw cid k s0 hacc]
    simp [mapInsert]

theorem Awareness.applyRecordAw_meta_isSome_mono (ts : Nat) (aw : Awareness) (r : AwRecord)
    (x : Nat) (h : (aw.meta x).isSome) :
    ((Awareness.applyRecordAw ts aw r).meta x).isSome := by
  by_cases hx : x = r.clientID
  · subst hx
    by_cases hacc : aw.accepts r = true
    · exact Awareness.applyRecordAw_meta_self_isSome ts aw r hacc
    · rw [Awareness.applyRecordAw_not_accepts ts aw r (by simpa using hacc)]
      exact h
  · rw [Awareness.applyRecordAw_meta_ne ts aw r x hx]
    exact h

theorem Awareness.statesMetaInv_applyRecordAw (ts : Nat) (aw : Awareness) (r : AwRecord)
    (h : Awareness.StatesMetaInv aw) :
    Awareness.StatesMetaInv (Awareness.applyRecordAw ts aw r) := by
  intro k hk
  by_cases hx : k = r.clientID
  · subst hx
    by_cases hacc : aw.accepts r = true
    · exact Awareness.applyRecordAw_meta_self_isSome ts aw r hacc
    · rw [Awareness.applyRecordAw_not_accepts ts aw r (by simpa using hacc)] at hk ⊢
      exact h _ hk
  · rw [Awareness.applyRecordAw_meta_ne ts aw r k hx]
    rw [Awareness.applyRecordAw_states_ne ts aw r k hx] at hk
    exact h k hk

theorem Awareness.applyRecords_clientID (ts : Nat) (aw : Awareness) (l : List AwRecord) :
    (Awareness.applyRecords ts aw l).clientID = aw.clientID := by
  induction l generalizing aw with
  | nil => rfl
  | cons r rest ih =>
    rw [Awareness.applyRecords, List.foldl_cons]
    rw [show List.foldl (Awareness.applyRecordAw ts) (Awareness.applyRecordAw ts aw r) rest =
      Awareness.applyRecords ts (Awareness.applyRecordAw ts aw r) rest from rfl]
    rw [ih, Awareness.applyRecordAw_clientID]

theorem Awareness.statesMetaInv_applyRecords (ts : Nat) (aw : Awareness) (l : List AwRecord)
    (h : Awareness.StatesMetaInv aw) :
    Awareness.StatesMetaInv (Awareness.applyRecords ts aw l) := by
  induction l generalizing aw with
  | nil => exact h
  | cons r rest ih =>
    rw [Awareness.applyRecords, List.foldl_cons]
    exact ih _ (Awareness.statesMetaInv_applyRecordAw ts aw r h)

theorem Awareness.applyRecords_meta_isSome_mono (ts : Nat) (aw : Awareness)
    (l : List AwRecord) (x : Nat) (h : (aw.meta x).isSome) :
    ((Awareness.applyRecords ts aw l).meta x).isSome := by
  induction l generalizing aw with
  | nil => exact h
  | cons r rest ih =>
    rw [Awareness.applyRecords, List.foldl_cons]
    exact ih _ (Awareness.applyRecordAw_meta_isSome_mono ts aw r x h)

theorem Awareness.removeStepAw_states_isSome_mono (ts : Nat) (aw : Awareness) (c x : Nat)
    (h : ((Awareness.removeStepAw ts aw c).states x).isSome) : (aw.states x).isSome := by
  by_cases hx : x = c
  · subst hx
    rw [Awareness.removeStepAw_states_self] at h
    cases h
  · rwa [Awareness.removeStepAw_states_ne ts aw c x hx] at h

theorem Awareness.statesMetaInv_removeStepAw (ts : Nat) (aw : Awareness) (c : Nat)
    (h : Awareness.StatesMetaInv aw) :
    Awareness.StatesMetaInv (Awareness.removeStepAw ts aw c) := by
  intro k hk
  exact Awareness.removeStepAw_meta_isSome_mono ts aw c k
    (h k (Awareness.removeStepAw_states_isSome_mono ts aw c k hk))

theorem Awareness.statesMetaInv_removeAll (ts : Nat) (aw : Awareness) (l : List Nat)
    (h : Awareness.StatesMetaInv aw) :
    Awareness.StatesMetaInv (Awareness.removeAll ts aw l) := by
  induction l generalizing aw with
  | nil => exact h
  | cons c cs ih =>
    rw [Awareness.removeAll, List.foldl_cons]
    exact ih _ (Awareness.statesMetaInv_removeStepAw ts aw c h)

theorem Awareness.removeAll_meta_isSome_mono (ts : Nat) (aw : Awareness) (l : List Nat)
    (x : Nat) (h : (aw.meta x).isSome) :
    ((Awareness.removeAll ts aw l).meta x).isSome := by
  induction l generalizing aw with
  | nil => exact h
  | cons c cs ih =>
    rw [Awareness.removeAll, List.foldl_cons]
    exact ih _ (Awareness.removeStepAw_meta_isSome_mono ts aw c x h)

theorem Awareness.statesMetaInv_removeTail (aw1 : Awareness) (now : Nat)
    (remove : List Nat) (h : Awareness.StatesMetaInv aw1) :
    Awareness.StatesMetaInv
      (if remove ≠ [] then (Awareness.removeStates aw1 remove now).aw else aw1) := by
  split
  · rw [Awareness.removeStates_aw]
    exact Awareness.statesMetaInv_removeAll now aw1 _ h
  · exact h

theorem Awareness.removeTail_meta_isSome_mono (aw1 : Awareness) (now : Nat)
    (remove : List Nat) (x : Nat) (h : (aw1.meta x).isSome) :
    ((if remove ≠ [] then (Awareness.removeStates aw1 remove now).aw else aw1).meta
      x).isSome := by
  split
  · rw [Awareness.removeStates_aw]
    exact Awareness.removeAll_meta_isSome_mono now aw1 _ x h
  · exact h

theorem Awareness.statesMetaInv_sweep (aw : Awareness) (now : Nat) (metaKeys : List Nat)
    (h : Awareness.StatesMetaInv aw) :
    Awareness.StatesMetaInv (Awareness.sweep aw now metaKeys) := by
  unfold Awareness.sweep
  cases aw.meta aw.clientID with
  | none => exact h
  | some m =>
    apply Awareness.statesMetaInv_removeTail
    split
    · exact Awareness.statesMetaInv_setLocalState aw _ now h
    · exact h

theorem Awareness.sweep_meta_isSome_mono (aw : Awareness) (now : Nat)
    (metaKeys : List Nat) (x : Nat) (h : (aw.meta x).isSome) :
    ((Awareness.sweep aw now metaKeys).meta x).isSome := by
  unfold Awareness.sweep
  cases aw.meta aw.clientID with
  | none => exact h
  | some m =>
    apply Awareness.removeTail_meta_isSome_mono
    split
    · exact Awareness.setLocalState_meta_isSome_mono aw _ now x h
    · exact h

-- ===================================================================== --
-- Backoff lemmas
-- ===================================================================== --

theorem closesFrom_fresh (n : Nat) :
    closesFrom freshConnAttempt n =
      { webSocketConnected := false, webSocketUnsuccessfulReconnects := n } := by
  induction n with
  | zero => rfl
  | succ n ih =>
    rw [closesFrom, ih]
    rfl

theorem nthUnsuccessfulDelay_eq (maxBackoffTime n : Nat) :
    nthUnsuccessfulDelay maxBackoffTime n = min (100 * 2 ^ n) maxBackoffTime := by
  unfold nthUnsuccessfulDelay nextReconnectDelay
  rw [closesFrom_fresh]
  rw [Nat.mul_comm]

-- ===================================================================== --
-- Remaining removeStates helper
-- ===================================================================== --

theorem Awareness.removeAll_mem_states_none (ts : Nat) (aw : Awareness) (l : List Nat) :
    ∀ c ∈ l, (Awareness.removeAll ts aw l).states c = none := by
  induction l generalizing aw with
  | nil => intro c hc; cases hc
  | cons c0 cs ih =>
    intro c hc
    rw [Awareness.removeAll, List.foldl_cons]
    rw [show List.foldl (Awareness.removeStepAw ts) (Awareness.removeStepAw ts aw c0) cs =
      Awareness.removeAll ts (Awareness.removeStepAw ts aw c0) cs from rfl]
    rcases List.mem_cons.mp hc with rfl | hc'
    · exact Awareness.removeAll_states_none_mono ts _ cs c
        (Awareness.removeStepAw_states_self ts aw c)
    · exact ih _ c hc'

-- ===================================================================== --
-- Claim theorems
-- ===================================================================== --

/-- C1.  Self-defense: for an Awareness instance whose local state is
non-null and whose `meta[self].clock` equals `c`, applying an incoming blob
containing the single record `(self, c, null)` keeps the `states` map
unchanged (in particular the local entry) and sets `meta[self]` to clock
`c + 1` with the apply timestamp. -/
theorem Awareness.self_defense (aw : Awareness) (c ts : Nat) (s : String)
    (m : MetaClientState) (h1 : aw.states aw.clientID = some s)
    (h2 : aw.meta aw.clientID = some m) (h3 : m.clock = c) :
    ∃ R : ApplyResult,
      Awareness.applyUpdateWire aw
        [WireItem.uint 1, WireItem.uint aw.clientID, WireItem.uint c, WireItem.json none]
        ts = some R ∧
      R.aw.states = aw.states ∧
      R.aw.meta aw.clientID = some ⟨c + 1, ts⟩ := by
  have hsome : (aw.states aw.clientID).isSome := by rw [h1]; rfl
  have hacc : aw.accepts ⟨aw.clientID, c, none⟩ = true := by
    rw [Awareness.accepts_iff]
    right
    refine ⟨?_, rfl, hsome⟩
    show aw.currClock aw.clientID = c
    unfold Awareness.currClock
    rw [h2]
    exact h3
  have hAw : (Awareness.applyUpdate aw [⟨aw.clientID, c, none⟩] ts).aw =
      { aw with meta := mapInsert aw.meta aw.clientID ⟨c + 1, ts⟩ } := by
    rw [Awareness.applyUpdate_aw]
    show Awareness.applyRecordAw ts aw ⟨aw.clientID, c, none⟩ = _
    rw [Awareness.applyRecordAw_selfDefense ts aw aw.clientID c hacc rfl hsome]
  refine ⟨Awareness.applyUpdate aw [⟨aw.clientID, c, none⟩] ts, ?_, ?_, ?_⟩
  · rfl
  · rw [hAw]
  · rw [hAw]
    simp [mapInsert]

/-- Witness for C1: Scenario B with self = 7, local state the object with
name = a, `meta[7].clock = 3`; the blob `[1, (7, 3, null)]` leaves `states`
unchanged and sets `meta[7]` to clock 4. -/
theorem Awareness.self_defense_witness :
    awScenarioB.states awScenarioB.clientID = some "\x7b\"name\":\"a\"\x7d" ∧
    awScenarioB.meta awScenarioB.clientID = some ⟨3, 0⟩ ∧
    ∃ R : ApplyResult,
      Awareness.applyUpdateWire awScenarioB
        [WireItem.uint 1, WireItem.uint awScenarioB.clientID, WireItem.uint 3,
          WireItem.json none] 50 = some R ∧
      R.aw.states = awScenarioB.states ∧
      R.aw.meta awScenarioB.clientID = some ⟨4, 50⟩ :=
  ⟨by decide, by decide,
    Awareness.self_defense awScenarioB 3 50 "\x7b\"name\":\"a\"\x7d" ⟨3, 0⟩
      (by decide) (by decide) (by decide)⟩

/-- C2.  Clock-based acceptance: a record is accepted only when
`known_clock < incoming_clock`, or when the clocks are equal, the state is
null and the client is present in `states`.  A blob all of whose records
fail this test mutates neither `states` nor `meta` and emits neither a
`change` nor an `update` event. -/
theorem Awareness.clock_acceptance (aw : Awareness) (records : List AwRecord) (ts : Nat)
    (h : ∀ r ∈ records,
      ¬(aw.currClock r.clientID < r.clock ∨
        (aw.currClock r.clientID = r.clock ∧ r.state = none ∧
          (aw.states r.clientID).isSome))) :
    Awareness.applyUpdate aw records ts = ⟨aw, [], [], [], []⟩ ∧
      ¬(Awareness.applyUpdate aw records ts).emitsChange ∧
      ¬(Awareness.applyUpdate aw records ts).emitsUpdate := by
  have hall : ∀ r ∈ records, aw.accepts r = false := by
    intro r hr
    have hne : ¬(aw.accepts r = true) := fun hacc =>
      (h r hr) ((Awareness.accepts_iff aw r).mp hacc)
    simpa using hne
  have heq := Awareness.applyUpdate_all_rejected aw records ts hall
  refine ⟨heq, ?_, ?_⟩ <;> rw [heq] <;>
    simp [ApplyResult.emitsChange, ApplyResult.emitsUpdate]

/-- Witness for C2: Scenario C with `meta[9].clock = 5`; the blob
`[1, (9, 4, the object with x = 1)]` mutates nothing and emits no events. -/
theorem Awareness.clock_acceptance_witness :
    (∀ r ∈ [(⟨9, 4, some "\x7b\"x\":1\x7d"⟩ : AwRecord)],
      ¬(awScenarioC.currClock r.clientID < r.clock ∨
        (awScenarioC.currClock r.clientID = r.clock ∧ r.state = none ∧
          (awScenarioC.states r.clientID).isSome))) ∧
    Awareness.applyUpdate awScenarioC [⟨9, 4, some "\x7b\"x\":1\x7d"⟩] 100 =
      ⟨awScenarioC, [], [], [], []⟩ ∧
    ¬(Awareness.applyUpdate awScenarioC [⟨9, 4, some "\x7b\"x\":1\x7d"⟩] 100).emitsChange ∧
    ¬(Awareness.applyUpdate awScenarioC [⟨9, 4, some "\x7b\"x\":1\x7d"⟩] 100).emitsUpdate :=
  ⟨by decide,
    Awareness.clock_acceptance awScenarioC [⟨9, 4, some "\x7b\"x\":1\x7d"⟩] 100 (by decide)⟩

/-- C3.  Reconnect backoff: after the n-th consecutive unsuccessful close
(n ≥ 1) starting from a fresh attempt the scheduled delay is exactly
`min(100 · 2^n, maxBackoffTime)`; a successful open resets the counter to 0;
with `maxBackoffTime = 2500` the first ten delays are 200, 400, 800, 1600,
2500, 2500, 2500, 2500, 2500, 2500 ms. -/
theorem WsConnState.reconnect_backoff (maxBackoffTime n : Nat) (h : 1 ≤ n) :
    nthUnsuccessfulDelay maxBackoffTime n = min (100 * 2 ^ n) maxBackoffTime ∧
      (∀ s : WsConnState, (handleOpenConn s).webSocketUnsuccessfulReconnects = 0) ∧
      (List.range 10).map (fun i => nthUnsuccessfulDelay 2500 (i + 1)) =
        [200, 400, 800, 1600, 2500, 2500, 2500, 2500, 2500, 2500] := by
  refine ⟨nthUnsuccessfulDelay_eq maxBackoffTime n, fun s => rfl, by decide⟩

/-- Witness for C3 at n = 5, maxBackoffTime = 2500. -/
theorem WsConnState.reconnect_backoff_witness :
    1 ≤ 5 ∧
      (nthUnsuccessfulDelay 2500 5 = min (100 * 2 ^ 5) 2500 ∧
        (∀ s : WsConnState, (handleOpenConn s).webSocketUnsuccessfulReconnects = 0) ∧
        (List.range 10).map (fun i => nthUnsuccessfulDelay 2500 (i + 1)) =
          [200, 400, 800, 1600, 2500, 2500, 2500, 2500, 2500, 2500]) :=
  ⟨by decide, WsConnState.reconnect_backoff 2500 5 (by decide)⟩

/-- C4.  Apply idempotence: once a decodable blob has been applied, applying
the same blob again to the resulting state leaves `states` and `meta`
exactly as they were (same maps, same clocks, same timestamps) and
classifies nothing, so the second application emits no events. -/
theorem Awareness.apply_idempotent (aw : Awareness) (items : List WireItem)
    (records : List AwRecord) (t1 t2 : Nat) (h : decodeBlob items = some records) :
    Awareness.applyUpdateWire (Awareness.applyUpdate aw records t1).aw items t2 =
      some ⟨(Awareness.applyUpdate aw records t1).aw, [], [], [], []⟩ := by
  unfold Awareness.applyUpdateWire
  rw [h, Option.map_some', Awareness.applyUpdate_idem aw records t1 t2]

/-- Witness for C4: a blob adding client 2 applied twice. -/
theorem Awareness.apply_idempotent_witness :
    decodeBlob [WireItem.uint 1, WireItem.uint 2, WireItem.uint 1,
        WireItem.json (some "\x7b\x7d")] = some [⟨2, 1, some "\x7b\x7d"⟩] ∧
    Awareness.applyUpdateWire
        (Awareness.applyUpdate awEmpty [⟨2, 1, some "\x7b\x7d"⟩] 5).aw
        [WireItem.uint 1, WireItem.uint 2, WireItem.uint 1,
          WireItem.json (some "\x7b\x7d")] 9 =
      some ⟨(Awareness.applyUpdate awEmpty [⟨2, 1, some "\x7b\x7d"⟩] 5).aw,
        [], [], [], []⟩ :=
  ⟨rfl, Awareness.apply_idempotent awEmpty _ _ 5 9 rfl⟩

/-- C5.  Encode/decode round-trip: when every listed client has a known
clock, `encodeUpdate` emits a blob that decodes to exactly the requested
restriction of `(states, meta)` — the triples `(id, meta[id].clock,
states[id] or null)`; when any listed client has no known clock, the encode
aborts with no blob. -/
theorem Awareness.encode_decode_roundtrip (aw : Awareness) (clients : List Nat) :
    ((∀ c ∈ clients, (aw.meta c).isSome) →
      ∃ items, Awareness.encodeUpdate aw clients aw.states = some items ∧
        decodeBlob items =
          some (clients.map fun c => ⟨c, aw.currClock c, aw.states c⟩)) ∧
    ((∃ c ∈ clients, aw.meta c = none) →
      Awareness.encodeUpdate aw clients aw.states = none) := by
  constructor
  · intro h
    have hs := (Awareness.encodeUpdate_isSome_iff aw clients aw.states).mpr h
    obtain ⟨items, hitems⟩ := Option.isSome_iff_exists.mp hs
    exact ⟨items, hitems, Awareness.encodeUpdate_decodeBlob aw clients aw.states items hitems⟩
  · rintro ⟨c, hc, hnone⟩
    cases he : Awareness.encodeUpdate aw clients aw.states with
    | none => rfl
    | some items =>
      have hall := (Awareness.encodeUpdate_isSome_iff aw clients aw.states).mp
        (by rw [he]; rfl)
      have := hall c hc
      rw [hnone] at this
      cases this

/-- Witness for C5: encoding clients [3] of a state where client 3 is known
round-trips, and encoding the unknown client [9] aborts. -/
theorem Awareness.encode_decode_roundtrip_witness :
    (∀ c ∈ [3], (awLocal3.meta c).isSome) ∧
    (∃ items, Awareness.encodeUpdate awLocal3 [3] awLocal3.states = some items ∧
      decodeBlob items =
        some ([3].map fun c => ⟨c, awLocal3.currClock c, awLocal3.states c⟩)) ∧
    ((∃ c ∈ [9], awLocal3.meta c = none) →
      Awareness.encodeUpdate awLocal3 [9] awLocal3.states = none) :=
  ⟨by decide, (Awareness.encode_decode_roundtrip awLocal3 [3]).1 (by decide),
    (Awareness.encode_decode_roundtrip awLocal3 [9]).2⟩

/-- C6 counterexample: with local client 1 absent from `states` (as after a
previous removal of the local entry) but carrying `meta[1].clock = 5`,
`removeStates [1]` leaves `meta[1]` at clock 5 — the clock is not
incremented although the local client id is in the removed set, refuting the
claim as stated. -/
theorem Awareness.remove_states_no_bump_counterexample :
    awNoLocalState.clientID ∈ [awNoLocalState.clientID] ∧
    (Awareness.removeStates awNoLocalState [awNoLocalState.clientID] 99).aw.meta
        awNoLocalState.clientID = some ⟨5, 0⟩ ∧
    ¬((Awareness.removeStates awNoLocalState [awNoLocalState.clientID] 99).aw.currClock
        awNoLocalState.clientID =
      awNoLocalState.currClock awNoLocalState.clientID + 1) := by decide

/-- C6 (amended).  `removeStates(clients, origin)`: afterwards every listed
client is absent from `states`; if the local client id is listed AND was
present in `states` (the states-meta invariant then provides its meta
entry), `meta[self].clock` is incremented by exactly one; the `change` and
`update` events fire iff at least one listed client was present in
`states`. -/
theorem Awareness.remove_states_spec (aw : Awareness) (clients : List Nat) (ts : Nat)
    (hInv : Awareness.SelfMetaInv aw) :
    (∀ c ∈ clients, (Awareness.removeStates aw clients ts).aw.states c = none) ∧
    (aw.clientID ∈ clients → (aw.states aw.clientID).isSome →
      (Awareness.removeStates aw clients ts).aw.currClock aw.clientID =
        aw.currClock aw.clientID + 1) ∧
    ((Awareness.removeStates aw clients ts).emitsEvents ↔
      ∃ c ∈ clients, (aw.states c).isSome) := by
  refine ⟨?_, ?_, ?_⟩
  · intro c hc
    rw [Awareness.removeStates_aw]
    exact Awareness.removeAll_mem_states_none ts aw clients c hc
  · intro hmem hs
    rw [Awareness.removeStates_aw]
    exact Awareness.removeAll_self_bump ts aw clients hInv hmem hs
  · unfold RemoveResult.emitsEvents
    rw [← not_iff_not]
    push_neg
    rw [Awareness.removeStates_removed_nil_iff aw clients ts hInv]
    constructor
    · intro h c hc
      rw [h c hc]
      simp
    · intro h c hc
      have := h c hc
      simpa using this

/-- Witness for C6 (amended): removing the present local client 3. -/
theorem Awareness.remove_states_spec_witness :
    Awareness.SelfMetaInv awLocal3 ∧
    ((∀ c ∈ [3], (Awareness.removeStates awLocal3 [3] 77).aw.states c = none) ∧
      (awLocal3.clientID ∈ [3] → (awLocal3.states awLocal3.clientID).isSome →
        (Awareness.removeStates awLocal3 [3] 77).aw.currClock awLocal3.clientID =
          awLocal3.currClock awLocal3.clientID + 1) ∧
      ((Awareness.removeStates awLocal3 [3] 77).emitsEvents ↔
        ∃ c ∈ [3], (awLocal3.states c).isSome)) :=
  ⟨fun h => by simpa using h,
    Awareness.remove_states_spec awLocal3 [3] 77 (fun h => by simpa using h)⟩

/-- C7.  Only syncStep2 flips `synced`: processing a sync frame sets the
provider's `synced` flag to true exactly when it was already true or the
frame was read with `emitSynced` (the transport path) and its sub-tag is
`syncStep2`; an `update` frame never flips it, even though `readUpdate` is
literally the same function as `readSyncStep2`, and local-bus frames
(`emitSynced = false`) never flip it. -/
theorem WebSocketProvider.only_syncStep2_flips_synced (p : WebSocketProvider)
    (m : SyncMsg) (emitSynced : Bool) :
    ((WebSocketProvider.readMessageSync p m emitSynced).synced = true ↔
      (p.synced = true ∨
        (emitSynced = true ∧ m.tag = SyncMessageType.syncStep2))) ∧
    readUpdate = readSyncStep2 := by
  refine ⟨?_, rfl⟩
  cases m <;> cases emitSynced <;> cases hp : p.synced <;>
    simp [WebSocketProvider.readMessageSync, readSyncMessage, SyncMsg.tag,
      SyncMessageType.syncStep1, SyncMessageType.syncStep2, SyncMessageType.update, hp]

/-- C8.  Explicit disconnect: whenever the awareness engine knows the local
clock (always true after construction), `disconnect()` clears
`shouldConnect`, invokes `socket.close()` exactly when a socket exists, and
leaves the local-bus subscription torn down — the early return of
`disconnectBroadcast` is not taken. -/
theorem WebSocketProvider.disconnect_spec (p : WebSocketProvider)
    (h : (p.awareness.meta p.awareness.clientID).isSome) :
    (WebSocketProvider.disconnect p).1.shouldConnect = false ∧
    (WebSocketProvider.disconnect p).2 = p.socketPresent ∧
    (WebSocketProvider.disconnect p).1.broadcastConnected = false := by
  have henc : (Awareness.encodeUpdate p.awareness [p.awareness.clientID]
      (fun _ => none)).isSome := by
    rw [Awareness.encodeUpdate_isSome_iff]
    intro c hc
    rw [List.mem_singleton.mp hc]
    exact h
  obtain ⟨items, hitems⟩ := Option.isSome_iff_exists.mp henc
  cases hb : p.broadcastConnected <;>
    simp [WebSocketProvider.disconnect, WebSocketProvider.disconnectBroadcast, hitems, hb]

/-- Witness for C8 on a concrete provider with a socket, an active bus
subscription and a known local clock. -/
theorem WebSocketProvider.disconnect_spec_witness :
    (providerW.awareness.meta providerW.awareness.clientID).isSome ∧
    ((WebSocketProvider.disconnect providerW).1.shouldConnect = false ∧
      (WebSocketProvider.disconnect providerW).2 = providerW.socketPresent ∧
      (WebSocketProvider.disconnect providerW).1.broadcastConnected = false) :=
  ⟨by decide, WebSocketProvider.disconnect_spec providerW (by decide)⟩

/-- C9.  States-meta invariant: if every key of `states` has a `meta` entry,
the same holds after a `localState` assignment, after `applyUpdate`, after
`removeStates`, after a sweeper tick, and after `destroy` (keys may exist in
`meta` only). -/
theorem Awareness.states_meta_invariant (aw : Awareness) (st : Option String)
    (ts now : Nat) (records : List AwRecord) (clients metaKeys : List Nat)
    (h : Awareness.StatesMetaInv aw) :
    Awareness.StatesMetaInv (Awareness.setLocalState aw st ts).aw ∧
    Awareness.StatesMetaInv (Awareness.applyUpdate aw records ts).aw ∧
    Awareness.StatesMetaInv (Awareness.removeStates aw clients ts).aw ∧
    Awareness.StatesMetaInv (Awareness.sweep aw now metaKeys) ∧
    Awareness.StatesMetaInv (Awareness.destroy aw ts).aw := by
  refine ⟨Awareness.statesMetaInv_setLocalState aw st ts h, ?_, ?_,
    Awareness.statesMetaInv_sweep aw now metaKeys h,
    Awareness.statesMetaInv_setLocalState aw none ts h⟩
  · rw [Awareness.applyUpdate_aw]
    exact Awareness.statesMetaInv_applyRecords ts aw records h
  · rw [Awareness.removeStates_aw]
    exact Awareness.statesMetaInv_removeAll ts aw clients h

/-- Witness for C9 starting from the empty awareness state. -/
theorem Awareness.states_meta_invariant_witness :
    Awareness.StatesMetaInv awEmpty ∧
    (Awareness.StatesMetaInv (Awareness.setLocalState awEmpty (some "\x7b\x7d") 3).aw ∧
      Awareness.StatesMetaInv (Awareness.applyUpdate awEmpty [⟨2, 1, none⟩] 3).aw ∧
      Awareness.StatesMetaInv (Awareness.removeStates awEmpty [2] 3).aw ∧
      Awareness.StatesMetaInv (Awareness.sweep awEmpty 3 [1, 2]) ∧
      Awareness.StatesMetaInv (Awareness.destroy awEmpty 3).aw) :=
  ⟨fun k hk => absurd hk (by simp [awEmpty]),
    Awareness.states_meta_invariant awEmpty (some "\x7b\x7d") 3 3 [⟨2, 1, none⟩] [2] [1, 2]
      (fun k hk => absurd hk (by simp [awEmpty]))⟩

/-- C10.  No operation deletes a `meta` key: `setLocalState`, `applyUpdate`,
`removeStates`, the sweeper and `destroy` all preserve existing `meta`
entries; the constructor ends with a `meta` entry for the local client; and
a state whose local client has a `meta` entry makes `encodeUpdate([self])`
produce a blob, never aborting. -/
theorem Awareness.meta_monotone (aw : Awareness) (k : Nat) (st : Option String)
    (ts now : Nat) (records : List AwRecord) (clients metaKeys : List Nat)
    (cid : Nat) :
    ((aw.meta k).isSome → ((Awareness.setLocalState aw st ts).aw.meta k).isSome) ∧
    ((aw.meta k).isSome → ((Awareness.applyUpdate aw records ts).aw.meta k).isSome) ∧
    ((aw.meta k).isSome → ((Awareness.removeStates aw clients ts).aw.meta k).isSome) ∧
    ((aw.meta k).isSome → ((Awareness.sweep aw now metaKeys).meta k).isSome) ∧
    ((aw.meta k).isSome → ((Awareness.destroy aw ts).aw.meta k).isSome) ∧
    ((Awareness.initial cid ts).meta cid).isSome ∧
    ((aw.meta aw.clientID).isSome →
      (Awareness.encodeUpdate aw [aw.clientID] aw.states).isSome) := by
  refine ⟨Awareness.setLocalState_meta_isSome_mono aw st ts k, ?_, ?_,
    Awareness.sweep_meta_isSome_mono aw now metaKeys k,
    Awareness.setLocalState_meta_isSome_mono aw none ts k, ?_, ?_⟩
  · intro h
    rw [Awareness.applyUpdate_aw]
    exact Awareness.applyRecords_meta_isSome_mono ts aw records k h
  · intro h
    rw [Awareness.removeStates_aw]
    exact Awareness.removeAll_meta_isSome_mono ts aw clients k h
  · show ((Awareness.setLocalState ⟨cid, fun _ => none, fun _ => none⟩
      (some "\x7b\x7d") ts).aw.meta cid).isSome
    rw [Awareness.setLocalState_aw_meta]
    simp [mapInsert]
  · intro h
    rw [Awareness.encodeUpdate_isSome_iff]
    intro c hc
    rw [List.mem_singleton.mp hc]
    exact h

/-- Witness for C10 on a state whose `meta` holds key 4. -/
theorem Awareness.meta_monotone_witness :
    (awMeta4.meta 4).isSome ∧
    ((Awareness.setLocalState awMeta4 none 8).aw.meta 4).isSome ∧
    ((Awareness.applyUpdate awMeta4 [⟨4, 2, none⟩] 8).aw.meta 4).isSome ∧
    ((Awareness.removeStates awMeta4 [4] 8).aw.meta 4).isSome ∧
    ((Awareness.sweep awMeta4 8 [4]).meta 4).isSome ∧
    ((Awareness.destroy awMeta4 8).aw.meta 4).isSome ∧
    ((Awareness.initial 6 8).meta 6).isSome ∧
    (Awareness.encodeUpdate awMeta4 [awMeta4.clientID] awMeta4.states).isSome :=
  ⟨by decide,
    (Awareness.meta_monotone awMeta4 4 none 8 8 [⟨4, 2, none⟩] [4] [4] 6).1 (by decide),
    (Awareness.meta_monotone awMeta4 4 none 8 8 [⟨4, 2, none⟩] [4] [4] 6).2.1 (by decide),
    (Awareness.meta_monotone awMeta4 4 none 8 8 [⟨4, 2, none⟩] [4] [4] 6).2.2.1 (by decide),
    (Awareness.meta_monotone awMeta4 4 none 8 8 [⟨4, 2, none⟩] [4] [4] 6).2.2.2.1 (by decide),
    (Awareness.meta_monotone awMeta4 4 none 8 8 [⟨4, 2, none⟩] [4] [4] 6).2.2.2.2.1 (by decide),
    (Awareness.meta_monotone awMeta4 4 none 8 8 [⟨4, 2, none⟩] [4] [4] 6).2.2.2.2.2.1,
    (Awareness.meta_monotone awMeta4 4 none 8 8 [⟨4, 2, none⟩] [4] [4] 6).2.2.2.2.2.2
      (by decide)⟩

